import Mathlib

/-!
Verification development for the Vidio library (Go), a video I/O wrapper
around an external ffmpeg/ffprobe engine.  The Go sources are shallowly
embedded: pure helpers become Lean functions, the stateful reader/writer
pipelines become explicit state passing over a state type, the external
engine and the file system become oracle parameters (a World), Go int
becomes Int with the Go truncating conversion and the Go remainder
operator modeled explicitly, and Go float64 becomes the rationals.
External process spawning is modeled as succeeding, with the byte stream
the process emits supplied as an explicit argument; process-start
failures are operating-system events outside the embedding.
-/

deriving instance DecidableEq for Except

/-- Go conversion int(x) for a float64 value x, modeled over the
rationals: truncation toward zero. -/
def goInt (q : ℚ) : Int :=
  if 0 ≤ q then ⌊q⌋ else ⌈q⌉

/-- Go integer remainder a % b (truncated division, sign of the
dividend), which is Int.tmod, not the Euclidean emod written % on Int in
Lean. -/
def goMod (a b : Int) : Int :=
  Int.tmod a b

/-- Splits a character list at every occurrence of the separator.  Helper
for goSplit. -/
def splitCharAux (sep : Char) : List Char → List (List Char)
  | [] => [[]]
  | c :: cs =>
    let r := splitCharAux sep cs
    if c = sep then [] :: r
    else
      match r with
      | [] => [[c]]
      | g :: gs => (c :: g) :: gs

/-- Go strings.Split for a one-character separator, which is the only
form the embedded sources use (separators "|", "=" and "/").  Defined on
the character list so that concrete inputs evaluate inside the kernel. -/
def goSplit (s : String) (sep : Char) : List String :=
  (splitCharAux sep s.data).map (fun l => ⟨l⟩)

/-- Go strings.HasSuffix. -/
def goHasSuffix (s sfx : String) : Bool :=
  sfx.data.isSuffixOf s.data

/-- Go strings.ToLower, restricted to the per-character lowering that the
embedded sources rely on (ASCII file extensions). -/
def goToLower (s : String) : String :=
  ⟨s.data.map Char.toLower⟩

/- ===================== frame.go: buildSelectExpression ===================== -/

/-- From src/frame.go, buildSelectExpression: builds the -vf select filter
string for a list of frame indices.  The Go strings.Builder loop appends,
for each index position, a plus separator (except at position 0) and the
token pieces; WriteString and WriteRune never fail, so the Go error
return is dead code and the model is a total pure function.  The comma is
escaped: the Go literal writes a backslash before the comma. -/
def buildSelectExpression (n : List Int) : String :=
  "select='" ++
    (n.enum.foldl
      (fun sb p =>
        sb ++ (if p.1 ≠ 0 then "+" else "") ++ "eq(n\\," ++ toString p.2 ++ ")")
      "") ++ "'"

/-- Join tokens with a plus separator, used to state the closed form of
buildSelectExpression. -/
def joinPlus : List String → String
  | [] => ""
  | [t] => t
  | t :: rest => t ++ "+" ++ joinPlus rest

/-- Closed form of the builder with the escaped comma, as the code emits
it. -/
def selectExpressionEscaped (n : List Int) : String :=
  "select='" ++ joinPlus (n.map (fun i => "eq(n\\," ++ toString i ++ ")")) ++ "'"

/-- The expression form that the claim text spells, with a bare unescaped
comma inside each eq term.  Written from the words of the spec only, to
be compared against the source function. -/
def selectExpressionClaim (n : List Int) : String :=
  "select='" ++ joinPlus (n.map (fun i => "eq(n," ++ toString i ++ ")")) ++ "'"

/- ===================== utils.go: parseFFprobe ===================== -/

/-- From src/utils.go, parseFFprobe: split the probe output on the pipe
character; for each token that contains an equals sign, split it on every
equals sign and store field zero as key and field one as value, keeping
only the first occurrence of each key.  The Go map with first-wins
insertion is modeled as an association list in insertion order, queried
with List.lookup.  The match arm with two fields is exactly the Go
strings.Contains guard: a token contains an equals sign if and only if
the split has at least two fields. -/
def parseFFprobe (input : String) : List (String × String) :=
  (goSplit input '|').foldl
    (fun data line =>
      match goSplit line '=' with
      | key :: value :: _ =>
        match data.lookup key with
        | none => data ++ [(key, value)]
        | some _ => data
      | _ => data)
    []

/-- Key and value of one probe token as the source takes them: fields
zero and one of the split on the equals sign, so the value is the segment
between the first and the second equals sign. -/
def tokenKV (line : String) : Option (String × String) :=
  match goSplit line '=' with
  | key :: value :: _ => some (key, value)
  | _ => none

/-- Key and value of one probe token as the claim words them: split on
the first equals sign only, so the value is everything after the first
equals sign.  Written from the words of the spec only. -/
def tokenKVClaim (line : String) : Option (String × String) :=
  match goSplit line '=' with
  | key :: v :: rest => some (key, joinEq (v :: rest))
  | _ => none
where
  joinEq : List String → String
    | [] => ""
    | [t] => t
    | t :: rest => t ++ "=" ++ joinEq rest

/-- The parser the claim describes: first-equals-sign splitting, first
occurrence of a duplicate key wins.  Written from the words of the spec
only. -/
def parseFFprobeClaim (input : String) : List (String × String) :=
  (goSplit input '|').foldl
    (fun data line =>
      match tokenKVClaim line with
      | some (key, value) =>
        match data.lookup key with
        | none => data ++ [(key, value)]
        | some _ => data
      | _ => data)
    []

/- ===================== video.go: the Video reader ===================== -/

/-- The state of the single directional pipe a Video owns: nil before the
lazy init, carrying the remaining engine output while running, and closed
after Close. -/
inductive PipeState where
  | noPipe : PipeState
  | running (remaining : List UInt8) : PipeState
  | closedPipe : PipeState
deriving DecidableEq

/-- From src/video.go, the Video struct.  The Go pointer fields cmd and
pipe are modeled as a Bool presence flag and a PipeState; framebuffer is
an Option because Go distinguishes a nil slice from an allocated one;
the ffprobe metadata map is an association list. -/
structure Video where
  filename : String
  width : Int
  height : Int
  depth : Int
  bitrate : Int
  frames : Int
  stream : Int
  duration : ℚ
  fps : ℚ
  codec : String
  hasstreams : Bool
  framebuffer : Option (List UInt8)
  metadata : List (String × String)
  pipe : PipeState
  cmd : Bool
deriving DecidableEq

/-- The frame size width times height times depth, as the byte count used
for buffer allocation (nonnegative by construction for probed videos). -/
def Video.frameSize (v : Video) : Nat :=
  (v.width * v.height * v.depth).toNat

/-- From src/video.go, Video.SetFrameBuffer: rejects a buffer shorter
than the frame size, installs it otherwise. -/
def Video.SetFrameBuffer (v : Video) (buffer : List UInt8) : Except String Video :=
  let size := v.width * v.height * v.depth
  if (buffer.length : Int) < size then
    .error ("vidio: buffer size " ++ toString buffer.length ++
      " is smaller than frame size " ++ toString size)
  else
    .ok { v with framebuffer := some buffer }

/-- Model of io.ReadFull(pipe, buf): transfer exactly buf.length bytes,
looping on short reads.  Returns the pipe state after the call, the
buffer after the call, and whether the full length was transferred.  On a
short source the bytes that were available are still written into the
front of the buffer, matching io.ReadFull, and the result is false; on a
pipe that is not running the read fails immediately with the buffer
untouched. -/
def readFull (pipe : PipeState) (buf : List UInt8) : PipeState × List UInt8 × Bool :=
  match pipe with
  | .running data =>
    if buf.length ≤ data.length then
      (.running (data.drop buf.length), data.take buf.length, true)
    else
      (.running [], data ++ buf.drop data.length, false)
  | p => (p, buf, false)

/-- From src/video.go, Video.init: start the decode pipeline (the ffmpeg
invocation that emits raw RGBA frames on stdout), and allocate the frame
buffer if the caller has not supplied one.  The byte stream the engine
will emit is the source argument. -/
def Video.init (v : Video) (source : List UInt8) : Video :=
  { v with
    cmd := true
    pipe := .running source
    framebuffer := some (v.framebuffer.getD (List.replicate v.frameSize 0)) }

/-- From src/video.go, Video.Close: close the pipe if one exists and wait
on the process. -/
def Video.close (v : Video) : Video :=
  match v.pipe with
  | .noPipe => v
  | _ => { v with pipe := .closedPipe }

/-- The body of Video.Read after the lazy init: fill the frame buffer
with io.ReadFull from the pipe; on any read error close the pipeline and
return false, otherwise true. -/
def Video.readStep (v1 : Video) : Bool × Video :=
  match v1.framebuffer with
  | none => (false, v1)
  | some buf =>
    let r := readFull v1.pipe buf
    let v2 := { v1 with pipe := r.1, framebuffer := some r.2.1 }
    if r.2.2 then (true, v2) else (false, v2.close)

/-- From src/video.go, Video.Read: lazily start the pipeline on the first
call (when cmd is nil), then run the read body. -/
def Video.read (v : Video) (source : List UInt8) : Bool × Video :=
  (if v.cmd then v else v.init source).readStep

/-- The reader state after n sequential Read calls. -/
def Video.readState (v : Video) (source : List UInt8) : Nat → Video
  | 0 => v
  | n + 1 => ((v.readState source n).read source).2

/-- The boolean result of the sequential Read call number n (counting
from zero). -/
def Video.readResult (v : Video) (source : List UInt8) (n : Nat) : Bool :=
  ((v.readState source n).read source).1

/-- The error classes the random-access readers report. -/
inductive VidioError where
  | outOfRange (n : Int) : VidioError
  | noIndices : VidioError
  | ioError : VidioError
deriving DecidableEq

/-- From src/video.go, Video.ReadFrame: validate the index against the
probed frame count before anything else, then allocate the frame buffer
if absent, build the select expression, run a one-shot decode pipeline
and fill the buffer from it.  Returns the error if any, the video state
after the call, and how many ffmpeg pipelines were started.  The one-shot
pipeline output is the oracle argument out. -/
def Video.readFrameModel (v : Video) (n : Int) (out : List UInt8) :
    Option VidioError × Video × Nat :=
  if v.frames ≤ n then (some (.outOfRange n), v, 0)
  else
    let fb := v.framebuffer.getD (List.replicate v.frameSize 0)
    let v1 := { v with framebuffer := some fb }
    let r := readFull (.running out) fb
    let v2 := { v1 with framebuffer := some r.2.1 }
    if r.2.2 then (none, v2, 1) else (some .ioError, v2, 1)

/-- The frame-reading loop of ReadFrames: one freshly allocated RGBA
image of size width times height times 4 per requested index, each filled
with io.ReadFull from the one-shot pipeline. -/
def readFramesLoop (fs : Nat) : Nat → List UInt8 → Option (List (List UInt8))
  | 0, _ => some []
  | c + 1, out =>
    if fs ≤ out.length then
      match readFramesLoop fs c (out.drop fs) with
      | some rest => some (out.take fs :: rest)
      | none => none
    else none

/-- From src/video.go, Video.ReadFrames: an empty index list is an error;
any index at or beyond the probed frame count is an error (the first
offender is reported); both checks run before the one-shot pipeline is
started.  On success one buffer per index, in the given order, is read
from the pipeline.  The video state itself is never touched.  Returns the
error if any, the frames, and how many pipelines were started. -/
def Video.readFramesModel (v : Video) (ns : List Int) (out : List UInt8) :
    Option VidioError × List (List UInt8) × Nat :=
  if ns.length = 0 then (some .noIndices, [], 0)
  else
    match ns.find? (fun m => decide (v.frames ≤ m)) with
    | some m => (some (.outOfRange m), [], 0)
    | none =>
      match readFramesLoop (v.width * v.height * 4).toNat ns.length out with
      | some frames => (none, frames, 1)
      | none => (some .ioError, [], 1)

/-- The external world the constructors consult: which files exist,
whether the tools are installed, and what ffprobe reports for a file and
a stream-type selector. -/
structure World where
  ffmpegInstalled : Bool
  ffprobeInstalled : Bool
  fileExists : String → Bool
  probe : String → String → List (List (String × String))

/-- Width step of addVideoData. -/
def avdWidth (parseF : String → ℚ) (data : List (String × String)) (video : Video) : Video :=
  match data.lookup "width" with
  | some w => { video with width := goInt (parseF w) }
  | none => video

/-- Height step of addVideoData. -/
def avdHeight (parseF : String → ℚ) (data : List (String × String)) (video : Video) : Video :=
  match data.lookup "height" with
  | some h => { video with height := goInt (parseF h) }
  | none => video

/-- Rotation step of addVideoData: a rotate tag of 90 or 270 swaps the
dimensions. -/
def avdRotate (data : List (String × String)) (video : Video) : Video :=
  match data.lookup "tag:rotate" with
  | some rotation =>
    if rotation = "90" ∨ rotation = "270" then
      { video with width := video.height, height := video.width }
    else video
  | none => video

/-- Duration step of addVideoData. -/
def avdDuration (parseF : String → ℚ) (data : List (String × String)) (video : Video) : Video :=
  match data.lookup "duration" with
  | some d => { video with duration := parseF d }
  | none => video

/-- Frame count step of addVideoData. -/
def avdFrames (parseF : String → ℚ) (data : List (String × String)) (video : Video) : Video :=
  match data.lookup "nb_frames" with
  | some f => { video with frames := goInt (parseF f) }
  | none => video

/-- Frame rate step of addVideoData: a fraction text split on the slash;
the division is skipped when either part is empty or the split does not
have exactly two parts. -/
def avdFps (parseF : String → ℚ) (data : List (String × String)) (video : Video) : Video :=
  match data.lookup "r_frame_rate" with
  | some fps =>
    match goSplit fps '/' with
    | [a, b] =>
      if a ≠ "" ∧ b ≠ "" then { video with fps := parseF a / parseF b } else video
    | _ => video
  | none => video

/-- Bitrate step of addVideoData. -/
def avdBitrate (parseF : String → ℚ) (data : List (String × String)) (video : Video) : Video :=
  match data.lookup "bit_rate" with
  | some b => { video with bitrate := goInt (parseF b) }
  | none => video

/-- Codec step of addVideoData. -/
def avdCodec (data : List (String × String)) (video : Video) : Video :=
  match data.lookup "codec_name" with
  | some c => { video with codec := c }
  | none => video

/-- From src/video.go, Video.addVideoData: fill the typed fields from the
probe key-value record, as the source sequence of guarded assignments
(width, height, rotation swap, duration, frame count, frame rate,
bitrate, codec).  Stdlib strconv.ParseFloat is abstracted as the parseF
argument (the spec notes unparsable values default to zero, which is a
property of parseF, not of this function). -/
def addVideoData (parseF : String → ℚ) (data : List (String × String)) (video : Video) : Video :=
  avdCodec data (avdBitrate parseF data (avdFps parseF data (avdFrames parseF data
    (avdDuration parseF data (avdRotate data (avdHeight parseF data
      (avdWidth parseF data video)))))))

/-- A Video as the NewVideoStreams loop builds it before addVideoData:
depth 4, stream index i, no pipeline, nil frame buffer. -/
def freshVideo (filename : String) (i : Int) (hasstream : Bool)
    (data : List (String × String)) : Video :=
  { filename := filename
    width := 0, height := 0, depth := 4, bitrate := 0, frames := 0
    stream := i, duration := 0, fps := 0, codec := ""
    hasstreams := hasstream
    framebuffer := none
    metadata := data
    pipe := .noPipe
    cmd := false }

/-- The auxiliary-stream detection loop of NewVideoStreams: probe the a,
s, d and t selectors and stop at the first nonempty answer. -/
def hasStreamCheck (world : World) (filename : String) : Bool :=
  ["a", "s", "d", "t"].any (fun c => (world.probe filename c).length > 0)

/-- The stream-construction loop of NewVideoStreams: one Video per video
stream record, at its index, filled in by addVideoData. -/
def buildStreams (parseF : String → ℚ) (filename : String)
    (videoData : List (List (String × String))) (hasstream : Bool) : List Video :=
  videoData.enum.map (fun p =>
    addVideoData parseF p.2 (freshVideo filename (p.1 : Int) hasstream p.2))

/-- From src/video.go, NewVideoStreams: existence and tool checks, probe
the video streams, detect auxiliary streams by probing the a, s, d and t
selectors, then build one Video per video stream record. -/
def NewVideoStreams (world : World) (parseF : String → ℚ) (filename : String) :
    Except String (List Video) :=
  if ¬ world.fileExists filename then
    .error ("vidio: video file " ++ filename ++ " does not exist")
  else if ¬ world.ffmpegInstalled then .error "ffmpeg is not installed"
  else if ¬ world.ffprobeInstalled then .error "ffprobe is not installed"
  else if (world.probe filename "v").length = 0 then
    .error ("vidio: no video data found in " ++ filename)
  else
    .ok (buildStreams parseF filename (world.probe filename "v")
      (hasStreamCheck world filename))

/-- From src/video.go, NewVideo: the first stream of NewVideoStreams. -/
def NewVideo (world : World) (parseF : String → ℚ) (filename : String) :
    Except String Video :=
  match NewVideoStreams world parseF filename with
  | .error e => .error e
  | .ok streams =>
    match streams with
    | [] => .error "vidio: no video data found"
    | v :: _ => .ok v

/- ===================== videowriter.go: the VideoWriter ===================== -/

/-- From src/videowriter.go, the Options struct of optional parameters;
the Go zero values mark fields as unset. -/
structure Options where
  Bitrate : Int
  Loop : Int
  Delay : Int
  Macro : Int
  FPS : ℚ
  Quality : ℚ
  Codec : String
  StreamFile : String
deriving DecidableEq

/-- The Go zero value of Options, used when the caller passes nil. -/
def Options.zero : Options :=
  ⟨0, 0, 0, 0, 0, 0, "", ""⟩

/-- From src/videowriter.go, the VideoWriter struct.  The Go field macro
is renamed macroSize because macro is a reserved word in Lean.  The Go
pointer fields cmd and pipe become presence flags; cmdArgs records the
argument vector the lazy init builds, and written records every byte
streamed into the encoder stdin. -/
structure VideoWriter where
  filename : String
  streamfile : String
  width : Int
  height : Int
  bitrate : Int
  loop : Int
  delay : Int
  macroSize : Int
  fps : ℚ
  quality : ℚ
  codec : String
  pipeSet : Bool
  cmdSet : Bool
  cmdArgs : List String
  written : List UInt8
deriving DecidableEq

/-- The default-resolution ladder of NewVideoWriter: every unset option
field (the Go zero value) is replaced by its default, a supplied quality
is clamped to the unit interval, and the default codec is chosen from the
output extension. -/
def resolveWriter (options : Options) (filename : String) (width height : Int) :
    VideoWriter :=
  { filename := filename
    streamfile := options.StreamFile
    width := width, height := height
    bitrate := options.Bitrate
    loop := options.Loop
    delay := if options.Delay = 0 then -1 else options.Delay
    macroSize := if options.Macro = 0 then 16 else options.Macro
    fps := if options.FPS = 0 then (25 : ℚ) else options.FPS
    quality := if options.Quality = 0 then (0.5 : ℚ) else max 0 (min options.Quality 1)
    codec :=
      if options.Codec = "" then
        if goHasSuffix (goToLower filename) ".wmv" then "msmpeg4"
        else if goHasSuffix (goToLower filename) ".gif" then "gif"
        else "libx264"
      else options.Codec
    pipeSet := false, cmdSet := false, cmdArgs := [], written := [] }

/-- From src/videowriter.go, NewVideoWriter: the tool check, then the
default-resolution ladder for every unset option, then the existence
check for an explicitly supplied stream file.  A nil options pointer
means the zero Options value. -/
def NewVideoWriter (world : World) (filename : String) (width height : Int)
    (options : Option Options) : Except String VideoWriter :=
  if ¬ world.ffmpegInstalled then .error "ffmpeg is not installed"
  else if (options.getD Options.zero).StreamFile ≠ "" ∧
      ¬ world.fileExists (options.getD Options.zero).StreamFile then
    .error ("file " ++ (options.getD Options.zero).StreamFile ++ " does not exist")
  else
    .ok (resolveWriter (options.getD Options.zero) filename width height)

/-- Two-digit decimal rendering of fmt.Sprintf with the %.02f verb on the
frame rate, over the rationals with round-half-up (the exact float
rendering of fmt is not modeled bit for bit; no claim depends on it). -/
def goFormat2f (q : ℚ) : String :=
  let cents : Int := goInt (q * 100 + 1 / 2)
  let r := (Int.tmod cents 100).natAbs
  toString (Int.tdiv cents 100) ++ "." ++
    (if r < 10 then "0" ++ toString r else toString r)

/-- The auxiliary-stream copy-through arguments of the writer init. -/
def streamCopyArgs (streamfile : String) : List String :=
  ["-i", streamfile,
   "-map", "0:v:0",
   "-map", "1:a?", "-c:a", "copy",
   "-map", "1:s?", "-c:s", "copy",
   "-map", "1:d?", "-c:d", "copy",
   "-map", "1:t?", "-c:t", "copy",
   "-shortest"]

/-- The bitrate-or-quality arguments of the writer init: an explicit
bitrate is used verbatim; otherwise the default codec takes a
constant-rate-factor of quality times 51 truncated, and any other codec a
quality scale of quality times 30 truncated plus one. -/
def qualityArgs (writer : VideoWriter) : List String :=
  if writer.bitrate = 0 then
    if writer.codec = "libx264" then
      ["-crf", toString (goInt (writer.quality * 51))]
    else
      ["-qscale:v", toString (goInt (writer.quality * 30) + 1)]
  else
    ["-b:v", toString writer.bitrate]

/-- One dimension of the macroblock padding: round up to the next
multiple of m when the Go remainder is positive, else unchanged. -/
def padDim (dim m : Int) : Int :=
  if 0 < goMod dim m then dim + (m - goMod dim m) else dim

/-- The padding guard of the writer init: macro larger than one and at
least one dimension with a positive Go remainder. -/
def VideoWriter.needsPad (writer : VideoWriter) : Prop :=
  1 < writer.macroSize ∧
    (0 < goMod writer.width writer.macroSize ∨ 0 < goMod writer.height writer.macroSize)

instance (writer : VideoWriter) : Decidable writer.needsPad := by
  unfold VideoWriter.needsPad; infer_instance

/-- The GIF test of the writer init: lowercased output filename ends in
the gif extension. -/
def VideoWriter.isGif (writer : VideoWriter) : Bool :=
  goHasSuffix (goToLower writer.filename) ".gif"

/-- The part of the encode argument vector built before the quality
fragment: the raw input stage, the optional auxiliary-stream copy-through
(only when a stream file is set and the output is not a GIF), and the
output codec and pixel format. -/
def VideoWriter.preQualityArgs (writer : VideoWriter) : List String :=
  ["-y", "-loglevel", "quiet", "-f", "rawvideo", "-vcodec", "rawvideo",
   "-s", toString writer.width ++ "x" ++ toString writer.height,
   "-pix_fmt", "rgba",
   "-r", goFormat2f writer.fps,
   "-i", "-"] ++
  (if writer.streamfile ≠ "" ∧ ¬ writer.isGif then streamCopyArgs writer.streamfile
   else []) ++
  ["-vcodec", writer.codec, "-pix_fmt", "yuv420p"]

/-- The GIF loop and final-delay fragment, emitted only for GIF output. -/
def VideoWriter.gifArgs (writer : VideoWriter) : List String :=
  if writer.isGif then
    ["-loop", toString writer.loop, "-final_delay", toString writer.delay]
  else []

/-- The macroblock padding fragment: a scale filter to the padded
dimensions, emitted only when padding applies. -/
def VideoWriter.padArgs (writer : VideoWriter) : List String :=
  if writer.needsPad then
    ["-vf", "scale=" ++ toString (padDim writer.width writer.macroSize) ++ ":" ++
      toString (padDim writer.height writer.macroSize)]
  else []

/-- From src/videowriter.go, VideoWriter.init: build the full encode
argument vector in the source order (raw input stage and copy-through and
codec, then the bitrate or quality fragment, then the GIF fragment, then
the padding scale filter, then the output filename), update the writer
dimensions to the padded values, and start the pipeline. -/
def VideoWriter.init (writer : VideoWriter) : VideoWriter :=
  { writer with
    width := if writer.needsPad then padDim writer.width writer.macroSize else writer.width
    height := if writer.needsPad then padDim writer.height writer.macroSize else writer.height
    cmdSet := true, pipeSet := true
    cmdArgs := writer.preQualityArgs ++ qualityArgs writer ++
      writer.gifArgs ++ writer.padArgs ++ [writer.filename] }

/-- From src/videowriter.go, VideoWriter.Write: lazily start the encode
pipeline on the first call, then loop writing the frame bytes to the pipe
until every byte is transferred. -/
def VideoWriter.write (writer : VideoWriter) (frame : List UInt8) : VideoWriter :=
  let writer := if writer.cmdSet then writer else writer.init
  { writer with written := writer.written ++ frame }

/- ===================== camera.go: the Camera reader ===================== -/

/-- From src/camera.go, the Camera struct (the fields the read loop
touches). -/
structure Camera where
  name : String
  width : Int
  height : Int
  depth : Int
  fps : ℚ
  codec : String
  cmdSet : Bool
  pipeSet : Bool

/-- The camera frame size width times height times depth bytes. -/
def Camera.frameSize (camera : Camera) : Nat :=
  (camera.width * camera.height * camera.depth).toNat

/-- The read loop of Camera.Read: repeatedly call pipe.Read and add
whatever byte count comes back, discarding the error, until the total
reaches the frame size.  The oracle reads gives, per call index, the byte
count and the error flag of that pipe read; the count is capped by the
space left, as the Go io.Reader contract guarantees.  The loop has no
exit on error or end of input, so it is modeled with explicit fuel: none
means the loop is still running after fuel iterations. -/
def cameraReadLoop (reads : Nat → Nat × Bool) (size : Nat) :
    Nat → Nat → Nat → Option Nat
  | 0, _, total => if size ≤ total then some total else none
  | fuel + 1, k, total =>
    if size ≤ total then some total
    else cameraReadLoop reads size fuel (k + 1) (total + min (reads k).1 (size - total))

/-- From src/camera.go, Camera.Read: lazily start the capture pipeline on
the first call, then run the fill loop; the only return statement yields
true.  The fuel bounds how many loop iterations the model runs; none
means the call has not returned within that many iterations. -/
def Camera.read (camera : Camera) (reads : Nat → Nat × Bool) (fuel : Nat) :
    Option Bool :=
  match cameraReadLoop reads camera.frameSize fuel 0 0 with
  | some _ => some true
  | none => none

/- ===================== helper lemmas ===================== -/

theorem joinPlus_cons (t : String) (rest : List String) (h : rest ≠ []) :
    joinPlus (t :: rest) = t ++ "+" ++ joinPlus rest := by
  cases rest with
  | nil => exact absurd rfl h
  | cons a l => rfl

theorem lookup_append (data ext : List (String × String)) (key : String) :
    (data ++ ext).lookup key =
      ((data.lookup key).rec ((ext.lookup key)) (fun v => some v) : Option String) := by
  induction data with
  | nil => simp [List.lookup]
  | cons p rest ih =>
    cases p with
    | mk k v =>
      by_cases h : key == k
      · simp [List.lookup, h]
      · simp only [List.cons_append, List.lookup, h]
        exact ih

theorem parse_fold_lookup (tokens : List String) :
    ∀ (acc : List (String × String)) (key : String),
    (tokens.foldl
      (fun data line =>
        match goSplit line '=' with
        | key :: value :: _ =>
          match data.lookup key with
          | none => data ++ [(key, value)]
          | some _ => data
        | _ => data) acc).lookup key =
      ((acc.lookup key).rec (((tokens.filterMap tokenKV).lookup key)) (fun v => some v) :
        Option String) := by
  induction tokens with
  | nil =>
    intro acc key
    cases h : acc.lookup key <;> simp [h]
  | cons t rest ih =>
    intro acc key
    simp only [List.foldl_cons, List.filterMap_cons]
    cases htok : goSplit t '=' with
    | nil =>
      simp only [tokenKV, htok]
      exact ih acc key
    | cons k tail =>
      cases tail with
      | nil =>
        simp only [tokenKV, htok]
        exact ih acc key
      | cons v rest2 =>
        simp only [tokenKV, htok]
        cases hk : acc.lookup k with
        | some w =>
          rw [ih acc key]
          by_cases hkey : key == k
          · have : key = k := by simpa using hkey
            subst this
            simp [hk, List.lookup, hkey]
          · simp [List.lookup, hkey]
        | none =>
          rw [ih (acc ++ [(k, v)]) key, lookup_append]
          by_cases hkey : key == k
          · have : key = k := by simpa using hkey
            subst this
            simp [hk, List.lookup, hkey]
          · cases hacc : acc.lookup key <;> simp [List.lookup, hkey, hacc]

/- ===================== Claim C6 ===================== -/

/-- Claim C6 counterexample: on the probe token a=b=c the parser keeps
only the field between the first and the second equals sign, value b,
while the claim (split each token on the first equals sign) predicts the
value b=c.  The claim as stated is therefore false at this input. -/
theorem parse_ffprobe_second_field_cx :
    parseFFprobe "a=b=c" = [("a", "b")] ∧
    parseFFprobeClaim "a=b=c" = [("a", "b=c")] ∧
    parseFFprobe "a=b=c" ≠ parseFFprobeClaim "a=b=c" := by
  refine ⟨by decide, by decide, by decide⟩

/-- Claim C6, amended: for every probe output text the parser splits it
on the pipe character, ignores tokens without an equals sign, takes the
key before the first equals sign and the value between the first and the
second equals sign (text after a second equals sign is discarded), and
when the same key appears more than once keeps only the value of its
first occurrence.  Stated as: looking up any key in the parsed map gives
exactly the first token of the split whose key field matches, with
tokenKV spelling out the two-field extraction. -/
theorem parse_ffprobe_characterization (input : String) (key : String) :
    (parseFFprobe input).lookup key =
      ((goSplit input '|').filterMap tokenKV).lookup key := by
  unfold parseFFprobe
  rw [parse_fold_lookup]
  simp [List.lookup]

/- ===================== Claim C7 ===================== -/

/-- Claim C7 counterexample: the builder escapes the comma inside each eq
term with a backslash, so on indices 0 and 1 it does not return the
string select='eq(n,0)+eq(n,1)' that the claim spells; it returns the
string with a backslash before each comma. -/
theorem select_expression_escaped_comma_cx :
    buildSelectExpression [0, 1] = "select='eq(n\\,0)+eq(n\\,1)'" ∧
    selectExpressionClaim [0, 1] = "select='eq(n,0)+eq(n,1)'" ∧
    buildSelectExpression [0, 1] ≠ selectExpressionClaim [0, 1] := by
  refine ⟨by decide, by decide, by decide⟩

/-- The per-element string of the builder. -/
def selectToken (i : Int) : String :=
  "eq(n\\," ++ toString i ++ ")"

/-- The plus-prefixed tail of tokens after the first one. -/
def plusTail : List Int → String
  | [] => ""
  | x :: xs => "+" ++ selectToken x ++ plusTail xs

theorem foldl_enumFrom_plus (xs : List Int) :
    ∀ (i : Nat) (sb : String), 0 < i →
    ((List.enumFrom i xs).foldl
      (fun sb p =>
        sb ++ (if p.1 ≠ 0 then "+" else "") ++ "eq(n\\," ++ toString p.2 ++ ")")
      sb) =
      sb ++ plusTail xs := by
  induction xs with
  | nil => intro i sb _; simp [plusTail, String.append_empty]
  | cons x rest ih =>
    intro i sb hi
    have hne : i ≠ 0 := Nat.pos_iff_ne_zero.mp hi
    simp only [List.enumFrom, List.foldl_cons, hne, ne_eq, not_false_eq_true, if_pos]
    rw [ih (i + 1) _ (Nat.succ_pos i)]
    simp only [plusTail, selectToken, String.append_assoc]

theorem joinPlus_tokens (xs : List Int) :
    ∀ x : Int,
    joinPlus ((x :: xs).map selectToken) = selectToken x ++ plusTail xs := by
  induction xs with
  | nil => intro x; simp [joinPlus, plusTail, String.append_empty]
  | cons y ys ih =>
    intro x
    show joinPlus (selectToken x :: selectToken y :: ys.map selectToken) = _
    rw [joinPlus_cons _ _ (by simp)]
    rw [show selectToken y :: ys.map selectToken = (y :: ys).map selectToken from rfl]
    rw [ih y]
    simp [plusTail, String.append_assoc]

/-- Claim C7, amended: for every ordered sequence of frame indices the
builder returns the filter string consisting of the prefix, the eq terms
with an escaped comma joined by plus signs in the order given by the
caller, and the closing quote; it performs no range validation (the
statement quantifies over all integer lists) and is a pure string
transform of the index list alone. -/
theorem select_expression_form (n : List Int) :
    buildSelectExpression n = selectExpressionEscaped n := by
  cases n with
  | nil => rfl
  | cons x xs =>
    unfold buildSelectExpression selectExpressionEscaped
    show "select='" ++
      ((List.enumFrom 1 xs).foldl _
        ("" ++ (if (0 : Nat) ≠ 0 then "+" else "") ++ "eq(n\\," ++ toString x ++ ")")) ++ "'" = _
    rw [foldl_enumFrom_plus xs 1 _ Nat.one_pos]
    rw [show ((x :: xs).map (fun i => "eq(n\\," ++ toString i ++ ")")) =
      (x :: xs).map selectToken from rfl]
    rw [joinPlus_tokens xs x]
    simp [selectToken, String.append_assoc, String.empty_append]

/- ===================== Claim C9 ===================== -/

/-- A concrete probed Video of width 2, height 2, depth 4 (frame size 16
bytes), freshly constructed: used as the input of the SetFrameBuffer
counterexample and witnesses. -/
def sampleVideo : Video :=
  { freshVideo "koala.mp4" 0 false [] with width := 2, height := 2, frames := 10 }

/-- Claim C9 counterexample: SetFrameBuffer does validate the supplied
length.  On a 2 x 2 x 4 video a 3-byte buffer is rejected with an error
instead of being accepted, so the claim that the operation accepts
whatever buffer the caller supplies without validating its length is
false at this input. -/
theorem set_frame_buffer_rejects_small_cx :
    sampleVideo.SetFrameBuffer (List.replicate 3 0) =
      .error "vidio: buffer size 3 is smaller than frame size 16" := by
  decide

/-- Claim C9, amended: SetFrameBuffer checks the supplied length against
width times height times depth: a shorter buffer is rejected with an
error and the video is left unchanged, while any buffer of at least that
many bytes (larger ones included) is installed as the frame buffer
without further checks. -/
theorem set_frame_buffer_validation (v : Video) (buffer : List UInt8) :
    ((buffer.length : Int) < v.width * v.height * v.depth →
      v.SetFrameBuffer buffer =
        .error ("vidio: buffer size " ++ toString buffer.length ++
          " is smaller than frame size " ++ toString (v.width * v.height * v.depth))) ∧
    (v.width * v.height * v.depth ≤ (buffer.length : Int) →
      v.SetFrameBuffer buffer = .ok { v with framebuffer := some buffer }) := by
  constructor
  · intro h
    simp [Video.SetFrameBuffer, h]
  · intro h
    simp [Video.SetFrameBuffer, not_lt.mpr h]

/-- Witness for the amended Claim C9 theorem: a 16-byte buffer on the
2 x 2 x 4 sample video is installed, and a 3-byte buffer is rejected. -/
theorem set_frame_buffer_validation_witness :
    sampleVideo.SetFrameBuffer (List.replicate 16 0) =
      .ok { sampleVideo with framebuffer := some (List.replicate 16 0) } ∧
    sampleVideo.SetFrameBuffer (List.replicate 3 0) =
      .error ("vidio: buffer size " ++ toString (List.replicate (3 : Nat) (0 : UInt8)).length ++
        " is smaller than frame size " ++
        toString (sampleVideo.width * sampleVideo.height * sampleVideo.depth)) :=
  ⟨(set_frame_buffer_validation sampleVideo (List.replicate 16 0)).2 (by decide),
   (set_frame_buffer_validation sampleVideo (List.replicate 3 0)).1 (by decide)⟩

/- ===================== Claim C10 ===================== -/

/-- A concrete camera used by the Claim C10 witness: 2 x 2 pixels at
depth 3, frame size 12 bytes. -/
def sampleCamera : Camera :=
  { name := "/dev/video0", width := 2, height := 2, depth := 3
    fps := 30, codec := "mjpeg", cmdSet := false, pipeSet := false }

theorem cameraReadLoop_insensitive (r1 r2 : Nat → Nat × Bool)
    (h : ∀ j, (r1 j).1 = (r2 j).1) (size : Nat) :
    ∀ (fuel k total : Nat),
    cameraReadLoop r1 size fuel k total = cameraReadLoop r2 size fuel k total := by
  intro fuel
  induction fuel with
  | zero => intro k total; rfl
  | succ f ih =>
    intro k total
    simp only [cameraReadLoop, h k]
    by_cases hs : size ≤ total
    · simp [hs]
    · simp only [hs, if_false]
      exact ih (k + 1) _

theorem cameraReadLoop_starves (reads : Nat → Nat × Bool)
    (h : ∀ j, (reads j).1 = 0) (size : Nat) :
    ∀ (fuel k total : Nat), total < size →
    cameraReadLoop reads size fuel k total = none := by
  intro fuel
  induction fuel with
  | zero => intro k total ht; simp [cameraReadLoop, Nat.not_le.mpr ht]
  | succ f ih =>
    intro k total ht
    simp only [cameraReadLoop, Nat.not_le.mpr ht, if_false, h k]
    simpa using ih (k + 1) total ht

/-- Claim C10: the camera read loop discards every read error and end of
input signal on the pipe and keeps looping until the frame buffer is
filled, so (first conjunct) whenever Camera.Read returns it returns true
and can never return false; (second conjunct) its outcome depends only on
the byte counts the pipe yields, never on the error values, so errors are
ignored; and (third conjunct) on a closed or exhausted stream, which
yields zero bytes on every read, the call does not terminate: for every
iteration bound the loop is still running. -/
theorem camera_read_never_false :
    (∀ (camera : Camera) (reads : Nat → Nat × Bool) (fuel : Nat) (b : Bool),
      camera.read reads fuel = some b → b = true) ∧
    (∀ (camera : Camera) (r1 r2 : Nat → Nat × Bool) (fuel : Nat),
      (∀ j, (r1 j).1 = (r2 j).1) → camera.read r1 fuel = camera.read r2 fuel) ∧
    (∀ (camera : Camera) (reads : Nat → Nat × Bool) (fuel : Nat),
      (∀ j, (reads j).1 = 0) → 0 < camera.frameSize →
      camera.read reads fuel = none) := by
  refine ⟨?_, ?_, ?_⟩
  · intro camera reads fuel b h
    unfold Camera.read at h
    cases hl : cameraReadLoop reads camera.frameSize fuel 0 0 with
    | none => rw [hl] at h; exact absurd h (by simp)
    | some t => rw [hl] at h; simpa using h.symm
  · intro camera r1 r2 fuel h
    unfold Camera.read
    rw [cameraReadLoop_insensitive r1 r2 h]
  · intro camera reads fuel h hsize
    unfold Camera.read
    rw [cameraReadLoop_starves reads h _ fuel 0 0 hsize]

/-- Witness for Claim C10: on the concrete 12-byte camera, a pipe that
always yields zero bytes leaves Read running after any number of
iterations (here 9), and the outcome with error flags raised on every
read equals the outcome with no error flags. -/
theorem camera_read_never_false_witness :
    sampleCamera.read (fun _ => (0, true)) 9 = none ∧
    sampleCamera.read (fun _ => (12, true)) 3 =
      sampleCamera.read (fun _ => (12, false)) 3 :=
  ⟨camera_read_never_false.2.2 sampleCamera (fun _ => (0, true)) 9
      (fun _ => rfl) (by decide),
   camera_read_never_false.2.1 sampleCamera (fun _ => (12, true))
      (fun _ => (12, false)) 3 (fun _ => rfl)⟩

/- ===================== Claim C2 ===================== -/

/-- Claim C2: ReadFrame fails with the out-of-range error exactly when
the index reaches the probed frame count, and in that case returns with
the video state untouched and zero pipelines started; ReadFrame never
touches the sequential pipeline state (the cmd and pipe fields) in any
case; ReadFrames with an empty index list fails with the no-indices error
and zero pipelines; and ReadFrames with any index at or beyond the frame
count fails with an out-of-range error carrying such an index, with zero
pipelines started.  ReadFrames by construction never touches the video
state, so the sequential pipeline state is untouched there as well. -/
theorem video_random_access_validation :
    (∀ (v : Video) (n : Int) (out : List UInt8),
      ((v.readFrameModel n out).1 = some (.outOfRange n) ↔ v.frames ≤ n) ∧
      (v.frames ≤ n → v.readFrameModel n out = (some (.outOfRange n), v, 0))) ∧
    (∀ (v : Video) (n : Int) (out : List UInt8),
      (v.readFrameModel n out).2.1.cmd = v.cmd ∧
      (v.readFrameModel n out).2.1.pipe = v.pipe) ∧
    (∀ (v : Video) (out : List UInt8),
      v.readFramesModel [] out = (some .noIndices, [], 0)) ∧
    (∀ (v : Video) (ns : List Int) (out : List UInt8),
      (∃ m ∈ ns, v.frames ≤ m) →
      (∃ m, (v.readFramesModel ns out).1 = some (.outOfRange m) ∧ v.frames ≤ m) ∧
      (v.readFramesModel ns out).2.2 = 0) := by
  refine ⟨?_, ?_, ?_, ?_⟩
  · intro v n out
    constructor
    · unfold Video.readFrameModel
      by_cases h : v.frames ≤ n
      · simp [h]
      · simp only [h, if_false]
        split
        · simp
        · simp
    · intro h
      unfold Video.readFrameModel
      simp [h]
  · intro v n out
    unfold Video.readFrameModel
    by_cases h : v.frames ≤ n
    · simp [h]
    · simp only [h, if_false]
      split
      · simp
      · simp
  · intro v out
    rfl
  · intro v ns out hex
    obtain ⟨m, hmem, hge⟩ := hex
    have hne : ns.length ≠ 0 := by
      cases ns with
      | nil => simp at hmem
      | cons a l => simp
    have hsome : (ns.find? (fun m => decide (v.frames ≤ m))).isSome :=
      List.find?_isSome.mpr ⟨m, hmem, by simpa using hge⟩
    obtain ⟨m2, hm2⟩ := Option.isSome_iff_exists.mp hsome
    have hp : v.frames ≤ m2 := by simpa using List.find?_some hm2
    unfold Video.readFramesModel
    simp only [hne, if_false, hm2]
    exact ⟨⟨m2, rfl, hp⟩, trivial⟩

/-- Witness for Claim C2 on the 2 x 2 x 4 sample video with 10 frames:
index 10 is out of range and leaves the state untouched with no pipeline
started, the empty index list fails, and an index list containing 12
fails with an out-of-range error and no pipeline started. -/
theorem video_random_access_validation_witness :
    sampleVideo.readFrameModel 10 [] = (some (.outOfRange 10), sampleVideo, 0) ∧
    sampleVideo.readFramesModel [] [] = (some .noIndices, [], 0) ∧
    ((∃ m, (sampleVideo.readFramesModel [0, 12] []).1 = some (.outOfRange m) ∧
        sampleVideo.frames ≤ m) ∧
      (sampleVideo.readFramesModel [0, 12] []).2.2 = 0) :=
  ⟨(video_random_access_validation.1 sampleVideo 10 []).2 (by decide),
   video_random_access_validation.2.2.1 sampleVideo [],
   video_random_access_validation.2.2.2 sampleVideo [0, 12] []
     ⟨12, by decide, by decide⟩⟩

theorem read_of_fresh (v : Video) (source : List UInt8) (h : v.cmd = false) :
    v.read source = (v.init source).readStep := by
  unfold Video.read
  rw [h]
  rfl

theorem read_started (v : Video) (source : List UInt8) (h : v.cmd = true) :
    v.read source = v.readStep := by
  unfold Video.read
  rw [h]
  rfl

theorem readStep_running (v : Video) (rem buf : List UInt8)
    (hpipe : v.pipe = .running rem) (hbuf : v.framebuffer = some buf)
    (hle : buf.length ≤ rem.length) :
    v.readStep = (true,
      { v with
        pipe := .running (rem.drop buf.length)
        framebuffer := some (rem.take buf.length) }) := by
  rcases v with ⟨fn, wd, ht, dp, br, fr, st, du, fp, co, hs, fb, md, pp, cm⟩
  dsimp only at hpipe hbuf ⊢
  subst hpipe; subst hbuf
  unfold Video.readStep readFull
  dsimp only
  rw [if_pos hle]
  rfl

theorem readStep_short (v : Video) (rem buf : List UInt8)
    (hpipe : v.pipe = .running rem) (hbuf : v.framebuffer = some buf)
    (hlt : rem.length < buf.length) :
    v.readStep = (false,
      { v with
        pipe := .closedPipe
        framebuffer := some (rem ++ buf.drop rem.length) }) := by
  rcases v with ⟨fn, wd, ht, dp, br, fr, st, du, fp, co, hs, fb, md, pp, cm⟩
  dsimp only at hpipe hbuf ⊢
  subst hpipe; subst hbuf
  unfold Video.readStep readFull
  dsimp only
  rw [if_neg (Nat.not_le.mpr hlt)]
  rfl

/- ===================== Claim C8 ===================== -/

theorem avd_pipeline (parseF : String → ℚ) (data : List (String × String)) :
    ∀ f ∈ [avdWidth parseF data, avdHeight parseF data, avdRotate data,
      avdDuration parseF data, avdFrames parseF data, avdFps parseF data,
      avdBitrate parseF data, avdCodec data],
    ∀ v : Video, (f v).cmd = v.cmd ∧ (f v).pipe = v.pipe ∧
      (f v).framebuffer = v.framebuffer := by
  intro f hf v
  simp only [List.mem_cons, List.not_mem_nil, or_false] at hf
  rcases hf with h | h | h | h | h | h | h | h <;> subst h
  · unfold avdWidth; split <;> exact ⟨rfl, rfl, rfl⟩
  · unfold avdHeight; split <;> exact ⟨rfl, rfl, rfl⟩
  · unfold avdRotate; repeat' split
    all_goals exact ⟨rfl, rfl, rfl⟩
  · unfold avdDuration; split <;> exact ⟨rfl, rfl, rfl⟩
  · unfold avdFrames; split <;> exact ⟨rfl, rfl, rfl⟩
  · unfold avdFps; repeat' split
    all_goals exact ⟨rfl, rfl, rfl⟩
  · unfold avdBitrate; split <;> exact ⟨rfl, rfl, rfl⟩
  · unfold avdCodec; split <;> exact ⟨rfl, rfl, rfl⟩

theorem addVideoData_pipeline (parseF : String → ℚ) (data : List (String × String))
    (video : Video) :
    (addVideoData parseF data video).cmd = video.cmd ∧
    (addVideoData parseF data video).pipe = video.pipe ∧
    (addVideoData parseF data video).framebuffer = video.framebuffer := by
  have h := avd_pipeline parseF data
  unfold addVideoData
  have hw := h (avdWidth parseF data) (by simp)
  have hh := h (avdHeight parseF data) (by simp)
  have hr := h (avdRotate data) (by simp)
  have hd := h (avdDuration parseF data) (by simp)
  have hf := h (avdFrames parseF data) (by simp)
  have hp := h (avdFps parseF data) (by simp)
  have hb := h (avdBitrate parseF data) (by simp)
  have hc := h (avdCodec data) (by simp)
  refine ⟨?_, ?_, ?_⟩ <;>
    simp [(hc _).1, (hc _).2.1, (hc _).2.2, (hb _).1, (hb _).2.1, (hb _).2.2,
      (hp _).1, (hp _).2.1, (hp _).2.2, (hf _).1, (hf _).2.1, (hf _).2.2,
      (hd _).1, (hd _).2.1, (hd _).2.2, (hr _).1, (hr _).2.1, (hr _).2.2,
      (hh _).1, (hh _).2.1, (hh _).2.2, (hw _).1, (hw _).2.1, (hw _).2.2]

/-- Claim C8: construction never starts the decode or encode pipeline.
Every Video a successful NewVideoStreams returns has a nil cmd and a nil
pipe; a successful NewVideoWriter likewise returns nil cmd and pipe; and
the pipeline is started lazily by the first frame operation: Read on a
Video with nil cmd starts it (cmd set, pipe no longer nil), and Write on
a VideoWriter with nil cmd starts it. -/
theorem lazy_pipeline_start :
    (∀ (world : World) (parseF : String → ℚ) (filename : String) (streams : List Video),
      NewVideoStreams world parseF filename = .ok streams →
      ∀ v ∈ streams, v.cmd = false ∧ v.pipe = .noPipe) ∧
    (∀ (world : World) (filename : String) (w h : Int) (opts : Option Options)
        (writer : VideoWriter),
      NewVideoWriter world filename w h opts = .ok writer →
      writer.cmdSet = false ∧ writer.pipeSet = false) ∧
    (∀ (v : Video) (source : List UInt8), v.cmd = false →
      (v.read source).2.cmd = true ∧ (v.read source).2.pipe ≠ .noPipe) ∧
    (∀ (writer : VideoWriter) (frame : List UInt8), writer.cmdSet = false →
      (writer.write frame).cmdSet = true ∧ (writer.write frame).pipeSet = true) := by
  refine ⟨?_, ?_, ?_, ?_⟩
  · intro world parseF filename streams h v hv
    unfold NewVideoStreams at h
    split at h
    · exact absurd h (by simp)
    split at h
    · exact absurd h (by simp)
    split at h
    · exact absurd h (by simp)
    split at h
    · exact absurd h (by simp)
    simp only [Except.ok.injEq] at h
    subst h
    unfold buildStreams at hv
    obtain ⟨p, _, hp⟩ := List.mem_map.mp hv
    subst hp
    obtain ⟨h1, h2, _⟩ := addVideoData_pipeline parseF p.2
      (freshVideo filename (p.1 : Int) (hasStreamCheck world filename) p.2)
    rw [h1, h2]
    exact ⟨rfl, rfl⟩
  · intro world filename w h opts writer hok
    unfold NewVideoWriter at hok
    split at hok
    · exact absurd hok (by simp)
    split at hok
    · exact absurd hok (by simp)
    simp only [Except.ok.injEq] at hok
    subst hok
    exact ⟨rfl, rfl⟩
  · intro v source h
    rw [read_of_fresh v source h]
    rcases le_or_lt (v.framebuffer.getD (List.replicate v.frameSize 0)).length
        source.length with hle | hlt
    · rw [readStep_running (v.init source) source
        (v.framebuffer.getD (List.replicate v.frameSize 0)) rfl rfl hle]
      exact ⟨rfl, by simp⟩
    · rw [readStep_short (v.init source) source
        (v.framebuffer.getD (List.replicate v.frameSize 0)) rfl rfl hlt]
      exact ⟨rfl, by simp⟩
  · intro writer frame h
    unfold VideoWriter.write
    simp only [h, if_false, Bool.false_eq_true]
    exact ⟨rfl, rfl⟩

/-- A world where every file exists, both tools are installed, and the
probe reports exactly one video stream with an empty metadata record. -/
def worldAll : World :=
  { ffmpegInstalled := true
    ffprobeInstalled := true
    fileExists := fun _ => true
    probe := fun _ stype => if stype = "v" then [[]] else [] }

/-- The parse oracle that maps every string to zero. -/
def parseZero : String → ℚ := fun _ => 0

/-- The streams the concrete construction returns in worldAll. -/
def sampleStreams : List Video :=
  (NewVideoStreams worldAll parseZero "in.mp4").toOption.getD []

/-- A fallback writer value for Option.getD. -/
def emptyWriter : VideoWriter :=
  { filename := "", streamfile := "", width := 0, height := 0, bitrate := 0
    loop := 0, delay := 0, macroSize := 0, fps := 0, quality := 0, codec := ""
    pipeSet := false, cmdSet := false, cmdArgs := [], written := [] }

/-- The writer the concrete construction returns in worldAll. -/
def sampleConstructedWriter : VideoWriter :=
  (NewVideoWriter worldAll "out.mp4" 2 2 none).toOption.getD emptyWriter

/-- Witness for Claim C8 at concrete inputs: the constructed streams and
writer carry nil cmd and pipe, and a first Read and a first Write start
the respective pipelines. -/
theorem lazy_pipeline_start_witness :
    (∀ v ∈ sampleStreams, v.cmd = false ∧ v.pipe = .noPipe) ∧
    (sampleConstructedWriter.cmdSet = false ∧ sampleConstructedWriter.pipeSet = false) ∧
    (((freshVideo "in.mp4" 0 false []).read [0, 0]).2.cmd = true ∧
      ((freshVideo "in.mp4" 0 false []).read [0, 0]).2.pipe ≠ .noPipe) ∧
    ((sampleConstructedWriter.write [0]).cmdSet = true ∧
      (sampleConstructedWriter.write [0]).pipeSet = true) :=
  ⟨lazy_pipeline_start.1 worldAll parseZero "in.mp4" sampleStreams rfl,
   lazy_pipeline_start.2.1 worldAll "out.mp4" 2 2 none sampleConstructedWriter rfl,
   lazy_pipeline_start.2.2.1 (freshVideo "in.mp4" 0 false []) [0, 0] rfl,
   lazy_pipeline_start.2.2.2 sampleConstructedWriter [0] rfl⟩

/- ===================== Claim C5 ===================== -/

/-- Claim C5: with ffmpeg installed, construction succeeds whenever the
stream file is unset or exists, returning exactly the resolved writer,
and the resolution follows the default table: loop is taken verbatim (so
unset zero means infinite), a delay of exactly zero becomes -1, a zero
macroblock alignment becomes 16, a zero frame rate becomes 25, a zero
quality becomes 0.5 while any other supplied quality is clamped to the
unit interval, and an empty codec resolves from the lowercased output
extension (msmpeg4 for .wmv, gif for .gif, libx264 otherwise); an
explicitly supplied stream file that does not exist fails construction. -/
theorem writer_defaults_resolution (world : World) (filename : String) (w h : Int)
    (opts : Options) (hff : world.ffmpegInstalled = true) :
    ((opts.StreamFile = "" ∨ world.fileExists opts.StreamFile = true) →
      NewVideoWriter world filename w h (some opts) =
        .ok (resolveWriter opts filename w h)) ∧
    ((resolveWriter opts filename w h).loop = opts.Loop ∧
      (resolveWriter opts filename w h).bitrate = opts.Bitrate ∧
      (resolveWriter opts filename w h).streamfile = opts.StreamFile) ∧
    (opts.Delay = 0 → (resolveWriter opts filename w h).delay = -1) ∧
    (opts.Delay ≠ 0 → (resolveWriter opts filename w h).delay = opts.Delay) ∧
    (opts.Macro = 0 → (resolveWriter opts filename w h).macroSize = 16) ∧
    (opts.Macro ≠ 0 → (resolveWriter opts filename w h).macroSize = opts.Macro) ∧
    (opts.FPS = 0 → (resolveWriter opts filename w h).fps = 25) ∧
    (opts.FPS ≠ 0 → (resolveWriter opts filename w h).fps = opts.FPS) ∧
    (opts.Quality = 0 → (resolveWriter opts filename w h).quality = 0.5) ∧
    (opts.Quality ≠ 0 →
      (resolveWriter opts filename w h).quality = max 0 (min opts.Quality 1)) ∧
    (opts.Codec = "" → goHasSuffix (goToLower filename) ".wmv" = true →
      (resolveWriter opts filename w h).codec = "msmpeg4") ∧
    (opts.Codec = "" → goHasSuffix (goToLower filename) ".wmv" = false →
      goHasSuffix (goToLower filename) ".gif" = true →
      (resolveWriter opts filename w h).codec = "gif") ∧
    (opts.Codec = "" → goHasSuffix (goToLower filename) ".wmv" = false →
      goHasSuffix (goToLower filename) ".gif" = false →
      (resolveWriter opts filename w h).codec = "libx264") ∧
    (opts.Codec ≠ "" → (resolveWriter opts filename w h).codec = opts.Codec) ∧
    (opts.StreamFile ≠ "" → world.fileExists opts.StreamFile = false →
      NewVideoWriter world filename w h (some opts) =
        .error ("file " ++ opts.StreamFile ++ " does not exist")) := by
  refine ⟨?_, ⟨rfl, rfl, rfl⟩, ?_, ?_, ?_, ?_, ?_, ?_, ?_, ?_, ?_, ?_, ?_, ?_, ?_⟩
  · intro hsf
    unfold NewVideoWriter
    rw [if_neg (by simp [hff])]
    rcases hsf with hsf | hsf
    · rw [if_neg (by simp [hsf])]
      rfl
    · rw [if_neg (by simp [hsf])]
      rfl
  · intro hd; simp [resolveWriter, hd]
  · intro hd; simp [resolveWriter, hd]
  · intro hm; simp [resolveWriter, hm]
  · intro hm; simp [resolveWriter, hm]
  · intro hf; simp [resolveWriter, hf]
  · intro hf; simp [resolveWriter, hf]
  · intro hq; simp [resolveWriter, hq]
  · intro hq; simp [resolveWriter, hq]
  · intro hc hw; simp [resolveWriter, hc, hw]
  · intro hc hw hg; simp [resolveWriter, hc, hw, hg]
  · intro hc hw hg; simp [resolveWriter, hc, hw, hg]
  · intro hc; simp [resolveWriter, hc]
  · intro hsf hex
    unfold NewVideoWriter
    rw [if_neg (by simp [hff]), if_pos (by simp [hsf, hex])]
    rfl

/-- A world with ffmpeg installed where no file exists, for the failing
stream-file construction. -/
def worldNoFiles : World :=
  { ffmpegInstalled := true
    ffprobeInstalled := true
    fileExists := fun _ => false
    probe := fun _ _ => [] }

/-- An Options value that explicitly supplies a stream file. -/
def optsWithStream : Options :=
  { Options.zero with StreamFile := "audio.mp4" }

/-- Witness for Claim C5 at concrete inputs: the all-unset Options value
resolves to the full default table on out.mp4 (delay -1, macro 16, fps
25, quality 0.5, codec libx264), on out.wmv to msmpeg4, on out.gif to
gif, and a supplied but missing stream file fails construction. -/
theorem writer_defaults_resolution_witness :
    NewVideoWriter worldAll "out.mp4" 2 2 (some Options.zero) =
      .ok (resolveWriter Options.zero "out.mp4" 2 2) ∧
    (resolveWriter Options.zero "out.mp4" 2 2).delay = -1 ∧
    (resolveWriter Options.zero "out.mp4" 2 2).macroSize = 16 ∧
    (resolveWriter Options.zero "out.mp4" 2 2).fps = 25 ∧
    (resolveWriter Options.zero "out.mp4" 2 2).quality = 0.5 ∧
    (resolveWriter Options.zero "out.mp4" 2 2).codec = "libx264" ∧
    (resolveWriter Options.zero "out.wmv" 2 2).codec = "msmpeg4" ∧
    (resolveWriter Options.zero "out.gif" 2 2).codec = "gif" ∧
    NewVideoWriter worldNoFiles "out.mp4" 2 2 (some optsWithStream) =
      .error ("file " ++ optsWithStream.StreamFile ++ " does not exist") :=
  ⟨(writer_defaults_resolution worldAll "out.mp4" 2 2 Options.zero rfl).1 (Or.inl rfl),
   (writer_defaults_resolution worldAll "out.mp4" 2 2 Options.zero rfl).2.2.1 rfl,
   (writer_defaults_resolution worldAll "out.mp4" 2 2 Options.zero rfl).2.2.2.2.1 rfl,
   (writer_defaults_resolution worldAll "out.mp4" 2 2 Options.zero rfl).2.2.2.2.2.2.1 rfl,
   (writer_defaults_resolution worldAll "out.mp4" 2 2 Options.zero
     rfl).2.2.2.2.2.2.2.2.1 rfl,
   (writer_defaults_resolution worldAll "out.mp4" 2 2 Options.zero
     rfl).2.2.2.2.2.2.2.2.2.2.2.2.1 rfl (by decide) (by decide),
   (writer_defaults_resolution worldAll "out.wmv" 2 2 Options.zero
     rfl).2.2.2.2.2.2.2.2.2.2.1 rfl (by decide),
   (writer_defaults_resolution worldAll "out.gif" 2 2 Options.zero
     rfl).2.2.2.2.2.2.2.2.2.2.2.1 rfl (by decide) (by decide),
   (writer_defaults_resolution worldNoFiles "out.mp4" 2 2 optsWithStream
     rfl).2.2.2.2.2.2.2.2.2.2.2.2.2.2 (by decide) rfl⟩

/- ===================== Claim C3 ===================== -/

theorem resolve_of_ok (world : World) (filename : String) (w h : Int)
    (opts : Option Options) (writer : VideoWriter)
    (hok : NewVideoWriter world filename w h opts = .ok writer) :
    writer = resolveWriter (opts.getD Options.zero) filename w h := by
  unfold NewVideoWriter at hok
  split at hok
  · exact absurd hok (by simp)
  split at hok
  · exact absurd hok (by simp)
  simpa using hok.symm

/-- The writer the default options resolve to for an mp4 output (default
codec libx264). -/
def mp4Writer : VideoWriter :=
  resolveWriter Options.zero "out.mp4" 2 2

/-- The writer the default options resolve to for a gif output (codec
gif, not the default codec). -/
def gifWriter : VideoWriter :=
  resolveWriter Options.zero "out.gif" 2 2

theorem goInt_half_51 : goInt ((0.5 : ℚ) * 51) = 25 := by
  unfold goInt; norm_num

theorem goInt_half_30 : goInt ((0.5 : ℚ) * 30) + 1 = 16 := by
  unfold goInt; norm_num

theorem goInt_one_51 : goInt ((1 : ℚ) * 51) = 51 := by
  unfold goInt; norm_num

theorem goInt_one_30 : goInt ((1 : ℚ) * 30) + 1 = 31 := by
  unfold goInt; norm_num

theorem mp4Writer_fields :
    mp4Writer.quality = 0.5 ∧ mp4Writer.codec = "libx264" ∧ mp4Writer.bitrate = 0 := by
  refine ⟨?_, ?_, rfl⟩
  · simp [mp4Writer, resolveWriter, Options.zero]
  · simp only [mp4Writer, resolveWriter, Options.zero, if_true]
    rw [if_neg (by decide), if_neg (by decide)]

theorem gifWriter_fields :
    gifWriter.quality = 0.5 ∧ gifWriter.codec = "gif" ∧ gifWriter.bitrate = 0 := by
  refine ⟨?_, ?_, rfl⟩
  · simp [gifWriter, resolveWriter, Options.zero]
  · simp only [gifWriter, resolveWriter, Options.zero, if_true]
    rw [if_neg (by decide), if_pos (by decide)]

/-- Claim C3 counterexample: a caller quality of exactly zero does not
resolve to CRF 0 or qscale 1.  The zero value is the unset sentinel, so
the resolved quality is the 0.5 default, giving CRF 25 for the default
codec and qscale 16 for the gif codec, contradicting the claim that
caller quality 0 resolves to CRF 0 and qscale 1. -/
theorem quality_zero_maps_to_default_cx :
    mp4Writer.quality = 0.5 ∧ mp4Writer.codec = "libx264" ∧
    qualityArgs mp4Writer = ["-crf", "25"] ∧
    qualityArgs mp4Writer ≠ ["-crf", "0"] ∧
    gifWriter.codec = "gif" ∧
    qualityArgs gifWriter = ["-qscale:v", "16"] ∧
    qualityArgs gifWriter ≠ ["-qscale:v", "1"] := by
  obtain ⟨hmq, hmc, hmb⟩ := mp4Writer_fields
  obtain ⟨hgq, hgc, hgb⟩ := gifWriter_fields
  have hm : qualityArgs mp4Writer = ["-crf", "25"] := by
    unfold qualityArgs
    rw [if_pos hmb, if_pos hmc, hmq, goInt_half_51]
    rfl
  have hg : qualityArgs gifWriter = ["-qscale:v", "16"] := by
    unfold qualityArgs
    rw [if_pos hgb, if_neg (by rw [hgc]; decide), hgq]
    rw [show goInt ((0.5 : ℚ) * 30) + 1 = 16 from goInt_half_30]
    rfl
  refine ⟨hmq, hmc, hm, by rw [hm]; decide, hgc, hg, by rw [hg]; decide⟩

/-- Claim C3, amended: when a VideoWriter is constructed without an
explicit bitrate, the writer resolved quality q (the caller value clamped
to the unit interval, with a caller value of exactly zero replaced by the
0.5 default) resolves to constant-rate-factor trunc(q * 51) for the
default codec and to quality scale trunc(q * 30) + 1 for any other codec;
hence caller quality 1 gives CRF 51 and qscale 31, while caller quality 0
gives the default 0.5 and hence CRF 25 and qscale 16.  The quality
fragment is embedded in the encode argument vector built by the lazy
init. -/
theorem quality_parameter_mapping (world : World) (filename : String) (w h : Int)
    (opts : Option Options) (writer : VideoWriter)
    (hok : NewVideoWriter world filename w h opts = .ok writer)
    (hbit : writer.bitrate = 0) :
    ((opts.getD Options.zero).Quality = 0 → writer.quality = 0.5) ∧
    ((opts.getD Options.zero).Quality = 1 → writer.quality = 1) ∧
    (writer.codec = "libx264" →
      qualityArgs writer = ["-crf", toString (goInt (writer.quality * 51))]) ∧
    (writer.codec ≠ "libx264" →
      qualityArgs writer = ["-qscale:v", toString (goInt (writer.quality * 30) + 1)]) ∧
    (goInt ((1 : ℚ) * 51) = 51 ∧ goInt ((1 : ℚ) * 30) + 1 = 31 ∧
      goInt ((0.5 : ℚ) * 51) = 25 ∧ goInt ((0.5 : ℚ) * 30) + 1 = 16) ∧
    (∃ pre post, (writer.init).cmdArgs = pre ++ (qualityArgs writer ++ post)) := by
  have hw := resolve_of_ok world filename w h opts writer hok
  refine ⟨?_, ?_, ?_, ?_, ⟨goInt_one_51, goInt_one_30, goInt_half_51, goInt_half_30⟩, ?_⟩
  · intro hq; subst hw; simp [resolveWriter, hq]
  · intro hq
    subst hw
    simp only [resolveWriter, hq]
    rw [if_neg (by norm_num)]
    norm_num
  · intro hc
    unfold qualityArgs
    rw [if_pos hbit, if_pos hc]
  · intro hc
    unfold qualityArgs
    rw [if_pos hbit, if_neg hc]
  · refine ⟨writer.preQualityArgs,
      writer.gifArgs ++ writer.padArgs ++ [writer.filename], ?_⟩
    unfold VideoWriter.init
    simp only [List.append_assoc]

/-- Witness for the amended Claim C3 theorem: the writer constructed from
nil options for out.mp4 resolves quality to 0.5, maps it through the CRF
branch, and embeds the quality fragment in the built argument vector. -/
theorem quality_parameter_mapping_witness :
    sampleConstructedWriter.quality = 0.5 ∧
    (∃ pre post,
      (sampleConstructedWriter.init).cmdArgs =
        pre ++ (qualityArgs sampleConstructedWriter ++ post)) :=
  ⟨(quality_parameter_mapping worldAll "out.mp4" 2 2 none sampleConstructedWriter
      rfl rfl).1 rfl,
   (quality_parameter_mapping worldAll "out.mp4" 2 2 none sampleConstructedWriter
      rfl rfl).2.2.2.2.2⟩

/- ===================== Claim C4 ===================== -/

/-- Options supplying a negative macroblock alignment. -/
def negMacroOpts : Options :=
  { Options.zero with Macro := -2 }

/-- The writer constructed with macroblock alignment -2 and width 5. -/
def negMacroWriter : VideoWriter :=
  resolveWriter negMacroOpts "out.mp4" 5 16

/-- Claim C4 counterexample: a writer with macroblock alignment -2 and
width 5 (which is not a multiple of -2: the Go remainder is 1) is not
padded at all, because the source guards the whole padding block by
macro strictly greater than one: the advertised width stays 5 (still not
a multiple of the alignment) and no scale filter fragment is emitted,
while the claim requires the non-conforming dimension to be rounded up
and a scale filter inserted for every such writer. -/
theorem negative_macro_skips_padding_cx :
    negMacroWriter.macroSize = -2 ∧
    goMod negMacroWriter.width negMacroWriter.macroSize ≠ 0 ∧
    (negMacroWriter.init).width = 5 ∧
    (negMacroWriter.init).height = 16 ∧
    negMacroWriter.padArgs = [] ∧
    goMod (negMacroWriter.init).width negMacroWriter.macroSize ≠ 0 := by
  refine ⟨rfl, by decide, ?_, ?_, ?_, ?_⟩
  · simp only [VideoWriter.init]
    rw [if_neg (by decide)]
    rfl
  · simp only [VideoWriter.init]
    rw [if_neg (by decide)]
    rfl
  · unfold VideoWriter.padArgs
    rw [if_neg (by decide)]
  · simp only [VideoWriter.init]
    rw [if_neg (by decide)]
    decide

theorem padDim_spec (dim m : Int) (hd : 0 ≤ dim) (hm : 1 < m) :
    (goMod dim m ≠ 0 →
      m ∣ padDim dim m ∧ dim < padDim dim m ∧ padDim dim m < dim + m) ∧
    (goMod dim m = 0 → padDim dim m = dim) := by
  have hemod : goMod dim m = dim % m := Int.tmod_eq_emod hd (by omega)
  have hlt : dim % m < m := Int.emod_lt_of_pos dim (by omega)
  have hge : 0 ≤ dim % m := Int.emod_nonneg dim (by omega)
  have hid : dim % m + m * (dim / m) = dim := Int.emod_add_ediv dim m
  constructor
  · intro hne
    rw [hemod] at hne
    have hpos : 0 < dim % m := lt_of_le_of_ne hge (Ne.symm hne)
    unfold padDim
    rw [hemod, if_pos hpos]
    refine ⟨⟨dim / m + 1, by rw [mul_add, mul_one]; omega⟩, by omega, by omega⟩
  · intro h0
    rw [hemod] at h0
    unfold padDim
    rw [hemod, if_neg (by omega)]

/-- Claim C4, amended: for every constructed VideoWriter with macroblock
alignment m strictly greater than one (the source skips padding entirely
for alignments of one or less) and nonnegative frame dimensions where the
width or the height has a nonzero remainder modulo m, the lazy init
rounds each non-conforming dimension up to the next multiple of m (the
padded value is the unique multiple of m in the open-closed interval
above the dimension), leaves a conforming dimension unchanged, emits the
scale filter fragment to the padded size and embeds it in the encode
argument vector regardless of whether the output is a GIF, and the
writer advertised width and height report the padded values after init. -/
theorem macroblock_padding (world : World) (filename : String) (w h : Int)
    (opts : Option Options) (writer : VideoWriter)
    (_hok : NewVideoWriter world filename w h opts = .ok writer)
    (hm : 1 < writer.macroSize)
    (hw0 : 0 ≤ writer.width) (hh0 : 0 ≤ writer.height)
    (hnc : goMod writer.width writer.macroSize ≠ 0 ∨
      goMod writer.height writer.macroSize ≠ 0) :
    (writer.init).width = padDim writer.width writer.macroSize ∧
    (writer.init).height = padDim writer.height writer.macroSize ∧
    (goMod writer.width writer.macroSize ≠ 0 →
      writer.macroSize ∣ padDim writer.width writer.macroSize ∧
      writer.width < padDim writer.width writer.macroSize ∧
      padDim writer.width writer.macroSize < writer.width + writer.macroSize) ∧
    (goMod writer.width writer.macroSize = 0 →
      padDim writer.width writer.macroSize = writer.width) ∧
    (goMod writer.height writer.macroSize ≠ 0 →
      writer.macroSize ∣ padDim writer.height writer.macroSize ∧
      writer.height < padDim writer.height writer.macroSize ∧
      padDim writer.height writer.macroSize < writer.height + writer.macroSize) ∧
    (goMod writer.height writer.macroSize = 0 →
      padDim writer.height writer.macroSize = writer.height) ∧
    writer.padArgs =
      ["-vf", "scale=" ++ toString (padDim writer.width writer.macroSize) ++ ":" ++
        toString (padDim writer.height writer.macroSize)] ∧
    (∃ pre post, (writer.init).cmdArgs = pre ++ (writer.padArgs ++ post)) := by
  have hpad : writer.needsPad := by
    refine ⟨hm, ?_⟩
    rcases hnc with hne | hne
    · exact Or.inl (lt_of_le_of_ne (Int.tmod_nonneg _ hw0) (Ne.symm hne))
    · exact Or.inr (lt_of_le_of_ne (Int.tmod_nonneg _ hh0) (Ne.symm hne))
  refine ⟨?_, ?_,
    (padDim_spec writer.width writer.macroSize hw0 hm).1,
    (padDim_spec writer.width writer.macroSize hw0 hm).2,
    (padDim_spec writer.height writer.macroSize hh0 hm).1,
    (padDim_spec writer.height writer.macroSize hh0 hm).2, ?_, ?_⟩
  · simp only [VideoWriter.init]
    rw [if_pos hpad]
  · simp only [VideoWriter.init]
    rw [if_pos hpad]
  · unfold VideoWriter.padArgs
    rw [if_pos hpad]
  · refine ⟨writer.preQualityArgs ++ qualityArgs writer ++ writer.gifArgs,
      [writer.filename], ?_⟩
    unfold VideoWriter.init
    simp only [List.append_assoc]

/-- The writer constructed for a GIF output of width 10 and height 16
with the default macroblock alignment 16: width 10 is not a multiple of
16, so padding applies on a GIF output. -/
def gifPadWriter : VideoWriter :=
  resolveWriter Options.zero "out.gif" 10 16

/-- Witness for the amended Claim C4 theorem on the concrete GIF writer
of width 10, height 16 and alignment 16: the advertised width after init
is the padded width, and the scale filter fragment is emitted even though
the output is a GIF. -/
theorem macroblock_padding_witness :
    (gifPadWriter.init).width = padDim gifPadWriter.width gifPadWriter.macroSize ∧
    gifPadWriter.padArgs =
      ["-vf", "scale=" ++ toString (padDim gifPadWriter.width gifPadWriter.macroSize) ++
        ":" ++ toString (padDim gifPadWriter.height gifPadWriter.macroSize)] :=
  ⟨(macroblock_padding worldAll "out.gif" 10 16 (some Options.zero) gifPadWriter
      rfl (by decide) (by decide) (by decide) (Or.inl (by decide))).1,
   (macroblock_padding worldAll "out.gif" 10 16 (some Options.zero) gifPadWriter
      rfl (by decide) (by decide) (by decide) (Or.inl (by decide))).2.2.2.2.2.2.1⟩

/- ===================== Claim C1 ===================== -/


/-- The reader state after j + 1 sequential reads of a source with frame
size bytes per frame: pipeline running with the first (j + 1) * size
bytes consumed, frame buffer holding frame j. -/
def runningState (v0 : Video) (source : List UInt8) (size j : Nat) : Video :=
  { v0 with
    cmd := true
    pipe := .running (source.drop ((j + 1) * size))
    framebuffer := some ((source.drop (j * size)).take size) }

theorem seq_inv (v0 : Video) (source : List UInt8) (size : Nat)
    (hsize : v0.frameSize = size) (hpos : 0 < size)
    (hcmd : v0.cmd = false)
    (hbuf : v0.framebuffer = none ∨ ∃ b, v0.framebuffer = some b ∧ b.length = size) :
    ∀ j, j < source.length / size →
      v0.readState source (j + 1) = runningState v0 source size j ∧
      v0.readResult source j = true := by
  have hb0 : (v0.framebuffer.getD (List.replicate v0.frameSize 0)).length = size := by
    rcases hbuf with hnone | ⟨b, hsome, hlen⟩
    · rw [hnone]; simp [hsize]
    · rw [hsome]; simpa using hlen
  intro j
  induction j with
  | zero =>
    intro hj
    have hsz_le : size ≤ source.length := by
      have h1 : 1 * size ≤ source.length := (Nat.le_div_iff_mul_le hpos).mp hj
      omega
    have hread : v0.read source = (true,
        { v0.init source with
          pipe := .running (source.drop
            (v0.framebuffer.getD (List.replicate v0.frameSize 0)).length)
          framebuffer := some (source.take
            (v0.framebuffer.getD (List.replicate v0.frameSize 0)).length) }) := by
      rw [read_of_fresh v0 source hcmd]
      exact readStep_running (v0.init source) source
        (v0.framebuffer.getD (List.replicate v0.frameSize 0)) rfl rfl
        (by rw [hb0]; exact hsz_le)
    constructor
    · show (v0.read source).2 = _
      rw [hread]
      unfold runningState Video.init
      rw [hb0]
      simp
    · show (v0.read source).1 = true
      rw [hread]
  | succ j ih =>
    intro hj
    have hj' : j < source.length / size := Nat.lt_of_succ_lt hj
    obtain ⟨hst, _⟩ := ih hj'
    have hmul1 : (j + 1) * size ≤ source.length :=
      (Nat.le_div_iff_mul_le hpos).mp (by omega)
    have hmul2 : (j + 2) * size ≤ source.length :=
      (Nat.le_div_iff_mul_le hpos).mp (by omega)
    have hblen : ((source.drop (j * size)).take size).length = size := by
      rw [List.length_take, List.length_drop]
      have e : (j + 1) * size = j * size + size := by ring
      rw [e] at hmul1
      omega
    have hremlen : size ≤ (source.drop ((j + 1) * size)).length := by
      rw [List.length_drop]
      have e : (j + 2) * size = (j + 1) * size + size := by ring
      rw [e] at hmul2
      omega
    have hread : (runningState v0 source size j).read source = (true,
        { runningState v0 source size j with
          pipe := .running ((source.drop ((j + 1) * size)).drop
            ((source.drop (j * size)).take size).length)
          framebuffer := some ((source.drop ((j + 1) * size)).take
            ((source.drop (j * size)).take size).length) }) := by
      rw [read_started _ source rfl]
      exact readStep_running (runningState v0 source size j)
        (source.drop ((j + 1) * size)) ((source.drop (j * size)).take size)
        rfl rfl (by rw [hblen]; exact hremlen)
    constructor
    · show ((v0.readState source (j + 1)).read source).2 = _
      rw [hst, hread]
      unfold runningState
      rw [hblen, List.drop_drop]
      ring_nf
    · show ((v0.readState source (j + 1)).read source).1 = true
      rw [hst, hread]

/-- Claim C1, amended: for every Video whose frame buffer is unset (to be
lazily allocated to exactly width times height times depth bytes) or was
supplied with exactly that length, iterating Read over a source of L
bytes yields: the first L / size calls each return true with the frame
buffer filled with exactly the size bytes of the corresponding frame in
order; the next call (number L / size, counting from zero) hits end of
input before filling the buffer, returns false exposing no frame, and
leaves the pipeline closed.  This is the call right after the last
true-returning call, and when L < size it is the very first call. -/
theorem video_read_sequential_protocol (v0 : Video) (source : List UInt8) (size : Nat)
    (hsize : v0.frameSize = size) (hpos : 0 < size)
    (hcmd : v0.cmd = false)
    (hbuf : v0.framebuffer = none ∨ ∃ b, v0.framebuffer = some b ∧ b.length = size) :
    (∀ i, i < source.length / size →
      v0.readResult source i = true ∧
      (v0.readState source (i + 1)).framebuffer =
        some ((source.drop (i * size)).take size) ∧
      ((source.drop (i * size)).take size).length = size) ∧
    v0.readResult source (source.length / size) = false ∧
    (v0.readState source (source.length / size + 1)).pipe = .closedPipe := by
  have hb0 : (v0.framebuffer.getD (List.replicate v0.frameSize 0)).length = size := by
    rcases hbuf with hnone | ⟨b, hsome, hlen⟩
    · rw [hnone]; simp [hsize]
    · rw [hsome]; simpa using hlen
  refine ⟨?_, ?_⟩
  · intro i hi
    obtain ⟨hst, hres⟩ := seq_inv v0 source size hsize hpos hcmd hbuf i hi
    have hmul : (i + 1) * size ≤ source.length :=
      (Nat.le_div_iff_mul_le hpos).mp (by omega)
    refine ⟨hres, ?_, ?_⟩
    · rw [hst]
      rfl
    · rw [List.length_take, List.length_drop]
      have e : (i + 1) * size = i * size + size := by ring
      rw [e] at hmul
      omega
  · rcases hk : source.length / size with _ | j
    · have hlt : source.length < size := by
        rw [Nat.div_eq_zero_iff hpos] at hk
        exact hk
      have hread : v0.read source = (false,
          { v0.init source with
            pipe := .closedPipe
            framebuffer := some (source ++
              (v0.framebuffer.getD (List.replicate v0.frameSize 0)).drop
                source.length) }) := by
        rw [read_of_fresh v0 source hcmd]
        exact readStep_short (v0.init source) source
          (v0.framebuffer.getD (List.replicate v0.frameSize 0)) rfl rfl
          (by rw [hb0]; exact hlt)
      constructor
      · show (v0.read source).1 = false
        rw [hread]
      · show (v0.read source).2.pipe = PipeState.closedPipe
        rw [hread]
    · obtain ⟨hst, _⟩ := seq_inv v0 source size hsize hpos hcmd hbuf j
        (by omega)
      have hmulk : (j + 1) * size ≤ source.length := by
        have := Nat.div_mul_le_self source.length size
        rw [hk] at this
        exact this
      have hblen : ((source.drop (j * size)).take size).length = size := by
        rw [List.length_take, List.length_drop]
        have e : (j + 1) * size = j * size + size := by ring
        rw [e] at hmulk
        omega
      have hremlt : (source.drop ((j + 1) * size)).length < size := by
        rw [List.length_drop]
        have hmod := Nat.div_add_mod source.length size
        have hmlt : source.length % size < size := Nat.mod_lt _ hpos
        rw [hk] at hmod
        have e : size * (j + 1) = (j + 1) * size := by ring
        rw [e] at hmod
        omega
      have hread : (runningState v0 source size j).read source = (false,
          { runningState v0 source size j with
            pipe := .closedPipe
            framebuffer := some ((source.drop ((j + 1) * size)) ++
              ((source.drop (j * size)).take size).drop
                (source.drop ((j + 1) * size)).length) }) := by
        rw [read_started _ source rfl]
        exact readStep_short (runningState v0 source size j)
          (source.drop ((j + 1) * size)) ((source.drop (j * size)).take size)
          rfl rfl (by rw [hblen]; exact hremlt)
      constructor
      · show ((v0.readState source (j + 1)).read source).1 = false
        rw [hst, hread]
      · show ((v0.readState source (j + 1)).read source).2.pipe = PipeState.closedPipe
        rw [hst, hread]

/-- A freshly probed 1 x 1 RGBA video (frame size 4 bytes) before any
buffer is attached. -/
def overVideoBase : Video :=
  { freshVideo "v.mp4" 0 false [] with width := 1, height := 1, frames := 2 }

/-- The same video after the caller installs an oversized 6-byte buffer
through SetFrameBuffer (legal, since 6 is at least the frame size 4). -/
def overVideo : Video :=
  { overVideoBase with framebuffer := some (List.replicate 6 0) }

/-- An 8-byte source holding two 4-byte frames. -/
def sourceEight : List UInt8 := [0, 1, 2, 3, 4, 5, 6, 7]

/-- Claim C1 counterexample: with a caller-supplied 6-byte buffer on a
video of frame size 4, a sequential Read fills the buffer with 6 bytes,
not exactly width times height times depth bytes, and still returns
true (io.ReadFull fills the whole frame buffer, whatever its length).
The oversized buffer is reachable through SetFrameBuffer, which accepts
any buffer at least as large as a frame. -/
theorem read_oversized_buffer_cx :
    overVideoBase.SetFrameBuffer (List.replicate 6 0) = .ok overVideo ∧
    overVideo.frameSize = 4 ∧
    (overVideo.read sourceEight).1 = true ∧
    (overVideo.read sourceEight).2.framebuffer = some [0, 1, 2, 3, 4, 5] := by
  refine ⟨rfl, rfl, rfl, rfl⟩

/-- The 36-byte source used by the Claim C1 witness: two full 16-byte
frames of the 2 x 2 RGBA sample video plus 4 trailing bytes. -/
def sourceW : List UInt8 := List.replicate 36 0

/-- Witness for the amended Claim C1 theorem on the 2 x 2 x 4 sample
video and a 36-byte source: the first call returns true, the call after
the last true-returning call (number 36 / 16 = 2) returns false, and the
pipeline is closed afterwards. -/
theorem video_read_sequential_protocol_witness :
    sampleVideo.readResult sourceW 0 = true ∧
    sampleVideo.readResult sourceW (sourceW.length / 16) = false ∧
    (sampleVideo.readState sourceW (sourceW.length / 16 + 1)).pipe =
      PipeState.closedPipe :=
  have h := video_read_sequential_protocol sampleVideo sourceW 16 rfl
    (by decide) rfl (Or.inl rfl)
  ⟨(h.1 0 (by decide)).1, h.2.1, h.2.2⟩
